import Mathlib

/-!
Verification of the session lifecycle, streaming, response-coordination and
notification components of the YZSCB assets repository.

The JavaScript sources are embedded shallowly: Mongo documents become Lean
structures, the session collection becomes a `List Session`, controller
functions become pure functions from the store (plus the request data and the
current time) to the new store and an HTTP-style result.  Fallible handlers
return `Except ErrResp` values.  Parts of the program that are referenced but
whose source file is not available (the Mongoose `Session` model's instance
methods, the inactivity sweep, the Python streaming producer and response
coordinator) are modelled from the specification; each such definition carries
a doc comment starting with `Modelled from the spec:`.
-/

/-- Model of JavaScript `String.prototype.trim`: drop whitespace from both
ends (`text.trim()` in `sessionController.js`). -/
def jsTrim (s : String) : String :=
  ⟨((s.data.dropWhile Char.isWhitespace).reverse.dropWhile Char.isWhitespace).reverse⟩

/-- Session lifecycle status, `status ∈ {active, ended, expired}`
(`sessionController.js` filters on `'active'`; `emailService.js` branches on
`'ended'`/`'expired'`). -/
inductive SessionStatus where
  | active
  | ended
  | expired
deriving DecidableEq, Repr

/-- One transcript message: `sender ∈ {user, bot}`, `text`, `timestamp`,
free-form `metadata` (key/value pairs). -/
structure Message where
  sender : String
  text : String
  timestamp : Nat
  metadata : List (String × String)
deriving DecidableEq, Repr

/-- Stored user identity, as assembled by `createSession` in
`sessionController.js` (with `location` flattened to its two fields). -/
structure UserInfo where
  fullName : String
  email : String
  companyName : String
  projectName : String
  supplierType : String
  city : Option String
  country : Option String
deriving DecidableEq, Repr

/-- Raw `userInfo` object of a create-session request body; `none` models an
absent (`undefined`) field. -/
structure RawUserInfo where
  fullName : Option String
  email : Option String
  companyName : Option String
  projectName : Option String
  supplierType : Option String
  city : Option String
  country : Option String
deriving DecidableEq, Repr

/-- A session document of the Mongo `sessions` collection. -/
structure Session where
  sessionId : String
  userInfo : UserInfo
  messages : List Message
  status : SessionStatus
  createdAt : Nat
  lastActivity : Nat
  endedAt : Option Nat
deriving DecidableEq, Repr

/-- An HTTP error response: status code plus the `error` string of the JSON
body (`res.status(code).json({success:false, error})`). -/
structure ErrResp where
  code : Nat
  error : String
deriving DecidableEq, Repr

/-- Response data of the message-adding routes
(`{sessionId, messageCount, lastActivity, messages}`). -/
structure MsgResp where
  sessionId : String
  messageCount : Nat
  lastActivity : Nat
  messages : List Message
deriving DecidableEq, Repr

/-- Response data of `PUT /api/sessions/:sessionId/end`
(`{sessionId, status, endedAt, duration, messageCount}`); the `duration`
virtual of the Session model is not among the sources and is omitted here. -/
structure EndResp where
  sessionId : String
  status : SessionStatus
  endedAt : Option Nat
  messageCount : Nat
deriving DecidableEq, Repr

/-- Response data of `PUT /api/sessions/:sessionId/activity`. -/
structure ActivityResp where
  sessionId : String
  lastActivity : Nat
deriving DecidableEq, Repr

/-- Response data of `POST /api/sessions`
(`{sessionId, userInfo, status, createdAt}`). -/
structure CreateResp where
  sessionId : String
  userInfo : UserInfo
  status : SessionStatus
  createdAt : Nat
deriving DecidableEq, Repr

/-- `Session.findOne({ sessionId, status: 'active' })`: first document whose
id matches and whose status is `active`. -/
def findActive (store : List Session) (sid : String) : Option Session :=
  store.find? fun s => decide (s.sessionId = sid ∧ s.status = SessionStatus.active)

/-- `Session.findOne({ sessionId })`: first document whose id matches
(used by `getSession` and by `fetchSessionData` in `emailService.js`). -/
def findSession (store : List Session) (sid : String) : Option Session :=
  store.find? fun s => decide (s.sessionId = sid)

/-- `session.save()`: write the (in-memory) document back into the
collection, replacing the document(s) carrying its id. -/
def saveSession (store : List Session) (s : Session) : List Session :=
  store.map fun t => if t.sessionId = s.sessionId then s else t

/-- Modelled from the spec: `Session.addMessage` is an instance method of
`backend/models/Session.js`, which is not among the sources.  The spec
requires that an append "atomically (a) appends the message, (b) sets
`lastActivity = now`". -/
def Session.addMessage (s : Session) (sender text : String)
    (metadata : List (String × String)) (now : Nat) : Session :=
  { s with
    messages := s.messages ++ [{ sender := sender, text := text, timestamp := now, metadata := metadata }]
    lastActivity := now }

/-- Modelled from the spec: `Session.endSession` is an instance method of
`backend/models/Session.js`, which is not among the sources.  The spec:
"transitions `active → ended`, sets `endedAt = now`". -/
def Session.endSessionDoc (s : Session) (now : Nat) : Session :=
  { s with status := SessionStatus.ended, endedAt := some now }

/-- Modelled from the spec: the inactivity sweep (`sweepExpired`) is not
among the sources.  The spec: "for every session with `status=active` and
`now - lastActivity > timeout`, transitions it to `expired`, sets
`endedAt = now`". -/
def sweepExpired (store : List Session) (timeout now : Nat) : List Session :=
  store.map fun s =>
    if s.status = SessionStatus.active ∧ timeout < now - s.lastActivity then
      { s with status := SessionStatus.expired, endedAt := some now }
    else s

/-- `addUserMessage` of `sessionController.js`: validate the text, find the
active session, append a `user` message. -/
def addUserMessage (store : List Session) (sid text : String) (now : Nat) :
    List Session × Except ErrResp MsgResp :=
  if jsTrim text = "" then
    (store, Except.error ⟨400, "Message text is required"⟩)
  else
    match findActive store sid with
    | none => (store, Except.error ⟨404, "Active session not found"⟩)
    | some s =>
      let s' := s.addMessage "user" (jsTrim text) [] now
      (saveSession store s',
       Except.ok ⟨s'.sessionId, s'.messages.length, s'.lastActivity, s'.messages⟩)

/-- `addBotMessage` of `sessionController.js`: like `addUserMessage` but with
sender `bot` and optional metadata (`metadata || {}`, absent modelled as `[]`). -/
def addBotMessage (store : List Session) (sid text : String)
    (metadata : List (String × String)) (now : Nat) :
    List Session × Except ErrResp MsgResp :=
  if jsTrim text = "" then
    (store, Except.error ⟨400, "Message text is required"⟩)
  else
    match findActive store sid with
    | none => (store, Except.error ⟨404, "Active session not found"⟩)
    | some s =>
      let s' := s.addMessage "bot" (jsTrim text) metadata now
      (saveSession store s',
       Except.ok ⟨s'.sessionId, s'.messages.length, s'.lastActivity, s'.messages⟩)

/-- `endSession` of `sessionController.js`: find the active session and mark
it ended. -/
def endSession (store : List Session) (sid : String) (now : Nat) :
    List Session × Except ErrResp EndResp :=
  match findActive store sid with
  | none => (store, Except.error ⟨404, "Active session not found"⟩)
  | some s =>
    let s' := s.endSessionDoc now
    (saveSession store s',
     Except.ok ⟨s'.sessionId, s'.status, s'.endedAt, s'.messages.length⟩)

/-- `updateActivity` of `sessionController.js`:
`findOneAndUpdate({sessionId, status:'active'}, {lastActivity: new Date()})`. -/
def updateActivity (store : List Session) (sid : String) (now : Nat) :
    List Session × Except ErrResp ActivityResp :=
  match findActive store sid with
  | none => (store, Except.error ⟨404, "Active session not found"⟩)
  | some s =>
    let s' := { s with lastActivity := now }
    (saveSession store s', Except.ok ⟨s'.sessionId, s'.lastActivity⟩)

/-- The allowed supplier types of the `POST /api/sessions` validation chain
(`isIn(['New Supplier', 'Current Supplier'])`). -/
def supplierTypes : List String := ["New Supplier", "Current Supplier"]

/-- JavaScript string falsiness as used by `createSession`'s checks
(`!userInfo.fullName` etc.): an absent field or the empty string. -/
def jsFalsy (o : Option String) : Bool := (o.getD "") = ""

/-- The express-validator chain of `POST /api/sessions` (route source quoted
in `API_DOCUMENTATION.md`): `userInfo` object, `fullName` trimmed non-empty,
`email` a valid address (the external `isEmail` predicate is a parameter),
`companyName` trimmed non-empty, `supplierType` in the allowed list.  Returns
the list of failed-check messages. -/
def validationErrors (isEmail : String → Bool) (u : Option RawUserInfo) : List String :=
  match u with
  | none => ["userInfo must be an object"]
  | some i =>
    (if jsTrim (i.fullName.getD "") = "" then ["Full name is required"] else [])
    ++ (if isEmail (i.email.getD "") then [] else ["Valid email is required"])
    ++ (if jsTrim (i.companyName.getD "") = "" then ["Company name is required"] else [])
    ++ (if (i.supplierType.getD "") ∈ supplierTypes then []
        else ["Supplier type must be New Supplier or Current Supplier"])

/-- The session document built by `createSession`: generated id, copied
identity fields (`projectName || 'N/A'`), empty message list, `status:
'active'`, schema timestamps set to now. -/
def newSession (i : RawUserInfo) (sid : String) (now : Nat) : Session :=
  { sessionId := sid
    userInfo :=
      { fullName := i.fullName.getD ""
        email := i.email.getD ""
        companyName := i.companyName.getD ""
        projectName := if jsFalsy i.projectName then "N/A" else i.projectName.getD ""
        supplierType := i.supplierType.getD ""
        city := i.city
        country := i.country }
    messages := []
    status := SessionStatus.active
    createdAt := now
    lastActivity := now
    endedAt := none }

/-- `createSession` of `sessionController.js`: reject if `userInfo` or any of
the four required fields is falsy, otherwise persist the new session and
answer 201 with `{sessionId, userInfo, status, createdAt}`.  `sid` stands for
the freshly generated `uuidv4()`. -/
def createSessionCtrl (store : List Session) (u : Option RawUserInfo)
    (sid : String) (now : Nat) : List Session × Except ErrResp CreateResp :=
  match u with
  | none => (store, Except.error ⟨400, "Missing required user information fields"⟩)
  | some i =>
    if jsFalsy i.fullName ∨ jsFalsy i.email ∨ jsFalsy i.companyName ∨ jsFalsy i.supplierType then
      (store, Except.error ⟨400, "Missing required user information fields"⟩)
    else
      let s := newSession i sid now
      (store ++ [s], Except.ok ⟨s.sessionId, s.userInfo, s.status, s.createdAt⟩)

/-- The full `POST /api/sessions` endpoint: the validation chain runs first
(the `validate` middleware answers 400 with the collected messages), then the
controller. -/
def createSessionEndpoint (isEmail : String → Bool) (store : List Session)
    (u : Option RawUserInfo) (sid : String) (now : Nat) :
    List Session × Except ErrResp CreateResp :=
  match validationErrors isEmail u with
  | [] => createSessionCtrl store u sid now
  | e :: _ => (store, Except.error ⟨400, e⟩)

/-! Helper lemmas about the store operations. -/

lemma findActive_spec {store : List Session} {sid : String} {s : Session}
    (h : findActive store sid = some s) :
    s ∈ store ∧ s.sessionId = sid ∧ s.status = SessionStatus.active := by
  have hmem := List.mem_of_find?_eq_some h
  have hp := List.find?_some h
  simp only [decide_eq_true_eq] at hp
  exact ⟨hmem, hp.1, hp.2⟩

lemma findSession_spec {store : List Session} {sid : String} {s : Session}
    (h : findSession store sid = some s) :
    s ∈ store ∧ s.sessionId = sid := by
  have hmem := List.mem_of_find?_eq_some h
  have hp := List.find?_some h
  simp only [decide_eq_true_eq] at hp
  exact ⟨hmem, hp⟩

lemma saveSession_ids (store : List Session) (s : Session) :
    (saveSession store s).map (·.sessionId) = store.map (·.sessionId) := by
  unfold saveSession
  rw [List.map_map]
  apply List.map_congr_left
  intro t _
  by_cases hc : t.sessionId = s.sessionId
  · simp [Function.comp, hc]
  · simp [Function.comp, hc]

lemma nodup_id_eq {store : List Session}
    (hnd : (store.map (·.sessionId)).Nodup)
    {s t : Session} (hs : s ∈ store) (ht : t ∈ store)
    (hid : s.sessionId = t.sessionId) : s = t := by
  induction store with
  | nil => cases hs
  | cons h tl ih =>
    simp only [List.map_cons, List.nodup_cons] at hnd
    rcases List.mem_cons.mp hs with rfl | hs' <;>
      rcases List.mem_cons.mp ht with rfl | ht'
    · rfl
    · exact absurd (hid ▸ List.mem_map_of_mem (·.sessionId) ht') hnd.1
    · exact absurd (hid ▸ List.mem_map_of_mem (·.sessionId) hs') hnd.1
    · exact ih hnd.2 hs' ht'

lemma findActive_none_of_not_mem {store : List Session} {sid : String}
    (h : sid ∉ store.map (·.sessionId)) : findActive store sid = none := by
  induction store with
  | nil => rfl
  | cons hd tl ih =>
    simp only [List.map_cons, List.mem_cons, not_or] at h
    rw [findActive, List.find?_cons]
    have : decide (hd.sessionId = sid ∧ hd.status = SessionStatus.active) = false := by
      simp only [decide_eq_false_iff_not, not_and]
      intro hc
      exact absurd hc.symm h.1
    rw [this]
    exact ih h.2

lemma saveSession_of_not_mem {store : List Session} {s' : Session}
    (h : s'.sessionId ∉ store.map (·.sessionId)) : saveSession store s' = store := by
  induction store with
  | nil => rfl
  | cons hd tl ih =>
    simp only [List.map_cons, List.mem_cons, not_or] at h
    unfold saveSession at ih ⊢
    simp only [List.map_cons]
    rw [if_neg (fun hc => h.1 hc.symm), ih h.2]

lemma findActive_save {store : List Session} {sid : String} {s : Session}
    (hnd : (store.map (·.sessionId)).Nodup)
    (hf : findActive store sid = some s) (s' : Session)
    (hid : s'.sessionId = s.sessionId)
    (hact : s'.status = SessionStatus.active) :
    findActive (saveSession store s') sid = some s' := by
  induction store with
  | nil => simp [findActive] at hf
  | cons hd tl ih =>
    simp only [List.map_cons, List.nodup_cons] at hnd
    rw [findActive, List.find?_cons] at hf
    by_cases hph : hd.sessionId = sid ∧ hd.status = SessionStatus.active
    · rw [decide_eq_true hph] at hf
      have hs : s = hd := by cases hf; rfl
      subst hs
      unfold saveSession
      simp only [List.map_cons]
      rw [if_pos hid.symm]
      rw [findActive, List.find?_cons]
      rw [decide_eq_true ⟨hid.trans hph.1, hact⟩]
    · rw [decide_eq_false hph] at hf
      have hs := findActive_spec hf
      have hhd : hd.sessionId ≠ sid := by
        intro hc
        exact hnd.1 (hc ▸ hs.2.1 ▸ List.mem_map_of_mem (·.sessionId) hs.1)
      unfold saveSession
      simp only [List.map_cons]
      rw [if_neg (fun hc => hhd (hc.trans (hid.trans hs.2.1)))]
      rw [findActive, List.find?_cons]
      rw [decide_eq_false (fun hc => hhd hc.1)]
      exact ih hnd.2 hf

lemma findActive_save_inactive {store : List Session} {sid : String} {s : Session}
    (hnd : (store.map (·.sessionId)).Nodup)
    (hf : findActive store sid = some s) (s' : Session)
    (hid : s'.sessionId = s.sessionId)
    (hact : s'.status ≠ SessionStatus.active) :
    findActive (saveSession store s') sid = none := by
  induction store with
  | nil => simp [findActive] at hf
  | cons hd tl ih =>
    simp only [List.map_cons, List.nodup_cons] at hnd
    rw [findActive, List.find?_cons] at hf
    by_cases hph : hd.sessionId = sid ∧ hd.status = SessionStatus.active
    · rw [decide_eq_true hph] at hf
      have hs : s = hd := by cases hf; rfl
      subst hs
      unfold saveSession
      simp only [List.map_cons]
      rw [if_pos hid.symm]
      rw [findActive, List.find?_cons]
      rw [decide_eq_false (fun hc => hact hc.2)]
      have htl : sid ∉ (tl.map (·.sessionId)) := hph.1 ▸ hnd.1
      have hsave : saveSession tl s' = tl :=
        saveSession_of_not_mem (fun hc => htl ((hid.trans hph.1) ▸ hc))
      have hgoal : findActive (saveSession tl s') sid = none := by
        rw [hsave]
        exact findActive_none_of_not_mem htl
      exact hgoal
    · rw [decide_eq_false hph] at hf
      have hs := findActive_spec hf
      have hhd : hd.sessionId ≠ sid := by
        intro hc
        exact hnd.1 (hc ▸ hs.2.1 ▸ List.mem_map_of_mem (·.sessionId) hs.1)
      unfold saveSession
      simp only [List.map_cons]
      rw [if_neg (fun hc => hhd (hc.trans (hid.trans hs.2.1)))]
      rw [findActive, List.find?_cons]
      rw [decide_eq_false (fun hc => hhd hc.1)]
      exact ih hnd.2 hf

lemma findSession_of_findActive {store : List Session} {sid : String} {s : Session}
    (hnd : (store.map (·.sessionId)).Nodup)
    (hf : findActive store sid = some s) :
    findSession store sid = some s := by
  induction store with
  | nil => simp [findActive] at hf
  | cons hd tl ih =>
    simp only [List.map_cons, List.nodup_cons] at hnd
    rw [findActive, List.find?_cons] at hf
    rw [findSession, List.find?_cons]
    by_cases hph : hd.sessionId = sid ∧ hd.status = SessionStatus.active
    · rw [decide_eq_true hph] at hf
      have hs : s = hd := by cases hf; rfl
      subst hs
      rw [decide_eq_true hph.1]
    · rw [decide_eq_false hph] at hf
      have hs := findActive_spec hf
      have hhd : hd.sessionId ≠ sid := by
        intro hc
        exact hnd.1 (hc ▸ hs.2.1 ▸ List.mem_map_of_mem (·.sessionId) hs.1)
      rw [decide_eq_false hhd]
      exact ih hnd.2 hf

lemma findSession_save {store : List Session} {sid : String} {s : Session}
    (hnd : (store.map (·.sessionId)).Nodup)
    (hf : findSession store sid = some s) (s' : Session)
    (hid : s'.sessionId = s.sessionId) :
    findSession (saveSession store s') sid = some s' := by
  induction store with
  | nil => simp [findSession] at hf
  | cons hd tl ih =>
    simp only [List.map_cons, List.nodup_cons] at hnd
    rw [findSession, List.find?_cons] at hf
    by_cases hph : hd.sessionId = sid
    · rw [decide_eq_true hph] at hf
      have hs : s = hd := by cases hf; rfl
      subst hs
      unfold saveSession
      simp only [List.map_cons]
      rw [if_pos hid.symm]
      rw [findSession, List.find?_cons]
      rw [decide_eq_true (hid.trans hph)]
    · rw [decide_eq_false hph] at hf
      have hs := findSession_spec hf
      have hhd : hd.sessionId ≠ sid := hph
      unfold saveSession
      simp only [List.map_cons]
      rw [if_neg (fun hc => hhd (hc.trans (hid.trans hs.2)))]
      rw [findSession, List.find?_cons]
      rw [decide_eq_false hhd]
      exact ih hnd.2 hf

lemma addUserMessage_ok {store : List Session} {sid text : String} {now : Nat} {s : Session}
    (hf : findActive store sid = some s) (ht : jsTrim text ≠ "") :
    addUserMessage store sid text now =
      (saveSession store (s.addMessage "user" (jsTrim text) [] now),
       Except.ok ⟨s.sessionId, s.messages.length + 1, now,
         s.messages ++ [⟨"user", jsTrim text, now, []⟩]⟩) := by
  unfold addUserMessage
  rw [if_neg ht, hf]
  simp [Session.addMessage]

lemma addBotMessage_ok {store : List Session} {sid text : String}
    {md : List (String × String)} {now : Nat} {s : Session}
    (hf : findActive store sid = some s) (ht : jsTrim text ≠ "") :
    addBotMessage store sid text md now =
      (saveSession store (s.addMessage "bot" (jsTrim text) md now),
       Except.ok ⟨s.sessionId, s.messages.length + 1, now,
         s.messages ++ [⟨"bot", jsTrim text, now, md⟩]⟩) := by
  unfold addBotMessage
  rw [if_neg ht, hf]
  simp [Session.addMessage]

lemma addMessage_status (s : Session) (sender text : String)
    (md : List (String × String)) (now : Nat) :
    (s.addMessage sender text md now).status = s.status := rfl

lemma addUserMessage_find {store : List Session} {sid text : String} {now : Nat} {s : Session}
    (hnd : (store.map (·.sessionId)).Nodup)
    (hf : findActive store sid = some s) (ht : jsTrim text ≠ "") :
    findActive (addUserMessage store sid text now).1 sid
      = some (s.addMessage "user" (jsTrim text) [] now) := by
  rw [addUserMessage_ok hf ht]
  exact findActive_save hnd hf _ rfl ((addMessage_status ..).trans (findActive_spec hf).2.2)

lemma addBotMessage_find {store : List Session} {sid text : String}
    {md : List (String × String)} {now : Nat} {s : Session}
    (hnd : (store.map (·.sessionId)).Nodup)
    (hf : findActive store sid = some s) (ht : jsTrim text ≠ "") :
    findActive (addBotMessage store sid text md now).1 sid
      = some (s.addMessage "bot" (jsTrim text) md now) := by
  rw [addBotMessage_ok hf ht]
  exact findActive_save hnd hf _ rfl ((addMessage_status ..).trans (findActive_spec hf).2.2)

lemma endSession_store {store : List Session} {sid : String} {now : Nat} {s : Session}
    (hf : findActive store sid = some s) :
    (endSession store sid now).1 = saveSession store (s.endSessionDoc now) := by
  unfold endSession
  rw [hf]

lemma endSession_after {store : List Session} {sid : String} {now : Nat} {s : Session}
    (hnd : (store.map (·.sessionId)).Nodup)
    (hf : findActive store sid = some s) :
    findSession (endSession store sid now).1 sid = some (s.endSessionDoc now) := by
  rw [endSession_store hf]
  exact findSession_save hnd (findSession_of_findActive hnd hf) _ rfl

lemma endSession_then_not_found {store : List Session} {sid : String} {now : Nat} {s : Session}
    (hnd : (store.map (·.sessionId)).Nodup)
    (hf : findActive store sid = some s) (now' : Nat) :
    endSession (endSession store sid now).1 sid now' =
      ((endSession store sid now).1, Except.error ⟨404, "Active session not found"⟩) := by
  have hnone : findActive (endSession store sid now).1 sid = none := by
    rw [endSession_store hf]
    exact findActive_save_inactive hnd hf _ rfl (by simp [Session.endSessionDoc])
  generalize hT : (endSession store sid now).1 = T at hnone ⊢
  unfold endSession
  rw [hnone]

/-- C3: `endSession` is idempotent in effect.  For a session that is `active`,
the first `endSession` call answers success, transitions the document to
`ended` with `endedAt = now`; any subsequent `endSession` call on that session
(now terminal) fails with the 404 `Active session not found` error and leaves
the store unchanged. -/
theorem endSession_idempotent_effect
    (store : List Session) (sid : String) (now now' : Nat) (s : Session)
    (hnd : (store.map (·.sessionId)).Nodup)
    (hf : findActive store sid = some s) :
    (endSession store sid now).2 =
      Except.ok ⟨sid, SessionStatus.ended, some now, s.messages.length⟩ ∧
    findSession (endSession store sid now).1 sid = some (s.endSessionDoc now) ∧
    (s.endSessionDoc now).status = SessionStatus.ended ∧
    (s.endSessionDoc now).endedAt = some now ∧
    endSession (endSession store sid now).1 sid now' =
      ((endSession store sid now).1, Except.error ⟨404, "Active session not found"⟩) := by
  refine ⟨?_, endSession_after hnd hf, rfl, rfl, endSession_then_not_found hnd hf now'⟩
  unfold endSession
  rw [hf]
  simp [Session.endSessionDoc, (findActive_spec hf).2.1]

/-- Sample data used by the concrete witnesses. -/
def sampleInfo : UserInfo :=
  ⟨"Jane Doe", "jane@x.com", "Acme", "N/A", "Current Supplier", none, none⟩

/-- A stored active session used by the concrete witnesses. -/
def sampleSession : Session :=
  ⟨"sid-1", sampleInfo, [], SessionStatus.active, 0, 0, none⟩

/-- Witness for C3 at a one-session store. -/
theorem endSession_idempotent_effect_witness :
    ([sampleSession].map (·.sessionId)).Nodup ∧
    findActive [sampleSession] "sid-1" = some sampleSession ∧
    ((endSession [sampleSession] "sid-1" 5).2 =
        Except.ok ⟨"sid-1", SessionStatus.ended, some 5, 0⟩ ∧
      findSession (endSession [sampleSession] "sid-1" 5).1 "sid-1" =
        some (sampleSession.endSessionDoc 5) ∧
      (sampleSession.endSessionDoc 5).status = SessionStatus.ended ∧
      (sampleSession.endSessionDoc 5).endedAt = some 5 ∧
      endSession (endSession [sampleSession] "sid-1" 5).1 "sid-1" 9 =
        ((endSession [sampleSession] "sid-1" 5).1,
          Except.error ⟨404, "Active session not found"⟩)) :=
  ⟨by decide, by decide,
    endSession_idempotent_effect [sampleSession] "sid-1" 5 9 sampleSession
      (by decide) (by decide)⟩

/-- C7: for a `sessionId` that does not name an active session, the
message-adding handlers and the activity ping all answer the 404
`Active session not found` error and leave the store unchanged; on success
`addUserMessage`/`addBotMessage` append the message and set
`lastActivity = now` in the same document update. -/
theorem append_and_touch_not_found_semantics
    (store : List Session) (sid text : String) (md : List (String × String)) (now : Nat) :
    (findActive store sid = none → jsTrim text ≠ "" →
      addUserMessage store sid text now =
        (store, Except.error ⟨404, "Active session not found"⟩) ∧
      addBotMessage store sid text md now =
        (store, Except.error ⟨404, "Active session not found"⟩) ∧
      updateActivity store sid now =
        (store, Except.error ⟨404, "Active session not found"⟩)) ∧
    ((store.map (·.sessionId)).Nodup → ∀ s, findActive store sid = some s →
      jsTrim text ≠ "" →
      findActive (addUserMessage store sid text now).1 sid =
        some { s with messages := s.messages ++ [⟨"user", jsTrim text, now, []⟩],
                      lastActivity := now } ∧
      (addUserMessage store sid text now).2 =
        Except.ok ⟨s.sessionId, s.messages.length + 1, now,
          s.messages ++ [⟨"user", jsTrim text, now, []⟩]⟩ ∧
      findActive (addBotMessage store sid text md now).1 sid =
        some { s with messages := s.messages ++ [⟨"bot", jsTrim text, now, md⟩],
                      lastActivity := now }) := by
  constructor
  · intro hn ht
    refine ⟨?_, ?_, ?_⟩
    · unfold addUserMessage
      rw [if_neg ht, hn]
    · unfold addBotMessage
      rw [if_neg ht, hn]
    · unfold updateActivity
      rw [hn]
  · intro hnd s hf ht
    refine ⟨?_, ?_, ?_⟩
    · exact addUserMessage_find hnd hf ht
    · rw [addUserMessage_ok hf ht]
    · exact addBotMessage_find hnd hf ht

/-- Witness for C7: the not-found branch at an empty store and the success
branch at a one-session store. -/
theorem append_and_touch_not_found_semantics_witness :
    (findActive [] "sid-1" = none ∧ jsTrim "hi" ≠ "" ∧
      addUserMessage [] "sid-1" "hi" 3 =
        ([], Except.error ⟨404, "Active session not found"⟩)) ∧
    (([sampleSession].map (·.sessionId)).Nodup ∧
      findActive [sampleSession] "sid-1" = some sampleSession ∧
      findActive (addUserMessage [sampleSession] "sid-1" "hi" 3).1 "sid-1" =
        some { sampleSession with
                 messages := sampleSession.messages ++ [⟨"user", jsTrim "hi", 3, []⟩],
                 lastActivity := 3 }) :=
  ⟨⟨by decide, by decide,
      ((append_and_touch_not_found_semantics [] "sid-1" "hi" [] 3).1
        (by decide) (by decide)).1⟩,
   ⟨by decide, by decide,
      (((append_and_touch_not_found_semantics [sampleSession] "sid-1" "hi" [] 3).2
        (by decide) sampleSession (by decide) (by decide)).1)⟩⟩

/-! Serialized concurrent appends (C1). -/

/-- One append call of the serialized history: a user append
(`addUserMessage`) or a bot append (`addBotMessage`), with its text, metadata
and time. -/
inductive AppendOp where
  | user (text : String) (now : Nat)
  | bot (text : String) (metadata : List (String × String)) (now : Nat)
deriving DecidableEq, Repr

/-- Apply one append call to the store. -/
def appendApply (store : List Session) (sid : String) : AppendOp → List Session
  | AppendOp.user t n => (addUserMessage store sid t n).1
  | AppendOp.bot t md n => (addBotMessage store sid t md n).1

/-- Run a serialization of append calls in order. -/
def runAppends (store : List Session) (sid : String) : List AppendOp → List Session
  | [] => store
  | op :: rest => runAppends (appendApply store sid op) sid rest

/-- The message an append call stores. -/
def appendMessageOf : AppendOp → Message
  | AppendOp.user t n => ⟨"user", jsTrim t, n, []⟩
  | AppendOp.bot t md n => ⟨"bot", jsTrim t, n, md⟩

/-- The raw text of an append call. -/
def appendText : AppendOp → String
  | AppendOp.user t _ => t
  | AppendOp.bot t _ _ => t

lemma appendApply_find {store : List Session} {sid : String} {s : Session}
    (hnd : (store.map (·.sessionId)).Nodup)
    (hf : findActive store sid = some s) (op : AppendOp)
    (ht : jsTrim (appendText op) ≠ "") :
    findActive (appendApply store sid op) sid =
      some { s with messages := s.messages ++ [appendMessageOf op],
                    lastActivity := op.casesOn (fun _ n => n) (fun _ _ n => n) } ∧
    ((appendApply store sid op).map (·.sessionId)).Nodup := by
  cases op with
  | user t n =>
    have ht' : jsTrim t ≠ "" := ht
    refine ⟨addUserMessage_find hnd hf ht', ?_⟩
    show ((addUserMessage store sid t n).1.map (·.sessionId)).Nodup
    rw [addUserMessage_ok hf ht', saveSession_ids]
    exact hnd
  | bot t md n =>
    have ht' : jsTrim t ≠ "" := ht
    refine ⟨addBotMessage_find hnd hf ht', ?_⟩
    show ((addBotMessage store sid t md n).1.map (·.sessionId)).Nodup
    rw [addBotMessage_ok hf ht', saveSession_ids]
    exact hnd

lemma runAppends_find {sid : String} :
    ∀ (ops : List AppendOp) (store : List Session) (s : Session),
      (store.map (·.sessionId)).Nodup →
      findActive store sid = some s →
      (∀ op ∈ ops, jsTrim (appendText op) ≠ "") →
      ∃ la, findActive (runAppends store sid ops) sid =
        some { s with messages := s.messages ++ ops.map appendMessageOf,
                      lastActivity := la }
  | [], store, s, _, hf, _ =>
    ⟨s.lastActivity, by
      simp only [runAppends, List.map_nil, List.append_nil]
      exact hf⟩
  | op :: rest, store, s, hnd, hf, hops => by
    have hop := appendApply_find hnd hf op (hops op (List.mem_cons_self op rest))
    obtain ⟨la, hla⟩ := runAppends_find rest (appendApply store sid op) _ hop.2 hop.1
      (fun o ho => hops o (List.mem_cons_of_mem op ho))
    refine ⟨la, ?_⟩
    rw [runAppends, hla]
    simp [List.append_assoc]

/-- C1: all serializations of N `appendMessage` calls on one active session
are loss-free.  Whatever order the N calls are serialized in, afterwards the
session's transcript is the old transcript extended by exactly the N appended
messages in that order: the final count is the prior count plus N and no
append is dropped. -/
theorem concurrent_appends_serializable
    (store : List Session) (sid : String) (s : Session) (ops : List AppendOp)
    (hnd : (store.map (·.sessionId)).Nodup)
    (hf : findActive store sid = some s)
    (hops : ∀ op ∈ ops, jsTrim (appendText op) ≠ "") :
    (findActive (runAppends store sid ops) sid).map (·.messages) =
      some (s.messages ++ ops.map appendMessageOf) ∧
    (findActive (runAppends store sid ops) sid).map (·.messages.length) =
      some (s.messages.length + ops.length) := by
  obtain ⟨la, hla⟩ := runAppends_find ops store s hnd hf hops
  rw [hla]
  constructor
  · simp
  · simp

/-- Witness for C1 with two serialized appends. -/
theorem concurrent_appends_serializable_witness :
    (([sampleSession].map (·.sessionId)).Nodup ∧
      findActive [sampleSession] "sid-1" = some sampleSession ∧
      (∀ op ∈ [AppendOp.user "hi" 4, AppendOp.bot "yo" [("k", "v")] 6],
        jsTrim (appendText op) ≠ "")) ∧
    (findActive (runAppends [sampleSession] "sid-1"
        [AppendOp.user "hi" 4, AppendOp.bot "yo" [("k", "v")] 6]) "sid-1").map
          (·.messages.length) = some 2 :=
  ⟨⟨by decide, by decide, by decide⟩,
    (concurrent_appends_serializable [sampleSession] "sid-1" sampleSession
      [AppendOp.user "hi" 4, AppendOp.bot "yo" [("k", "v")] 6]
      (by decide) (by decide) (by decide)).2⟩

/-! Session creation (C6). -/

/-- The claim's reading of "absent or malformed", judged by the endpoint's
own validators: no `userInfo` object, empty trimmed full name, an email the
`isEmail` validator rejects, empty trimmed company name, or a supplier type
outside the allowed list. -/
def requiredFieldMissingOrMalformed (isEmail : String → Bool) (u : Option RawUserInfo) : Prop :=
  match u with
  | none => True
  | some i =>
    jsTrim (i.fullName.getD "") = "" ∨ isEmail (i.email.getD "") = false ∨
    jsTrim (i.companyName.getD "") = "" ∨ (i.supplierType.getD "") ∉ supplierTypes

instance (isEmail : String → Bool) (u : Option RawUserInfo) :
    Decidable (requiredFieldMissingOrMalformed isEmail u) := by
  cases u with
  | none => exact isTrue trivial
  | some i =>
    exact inferInstanceAs (Decidable (jsTrim (i.fullName.getD "") = "" ∨
      isEmail (i.email.getD "") = false ∨ jsTrim (i.companyName.getD "") = "" ∨
      (i.supplierType.getD "") ∉ supplierTypes))

lemma validationErrors_nil_iff (isEmail : String → Bool) (u : Option RawUserInfo) :
    validationErrors isEmail u = [] ↔ ¬ requiredFieldMissingOrMalformed isEmail u := by
  cases u with
  | none => simp [validationErrors, requiredFieldMissingOrMalformed]
  | some i =>
    simp only [validationErrors, requiredFieldMissingOrMalformed]
    by_cases h1 : jsTrim (i.fullName.getD "") = "" <;>
      by_cases h2 : isEmail (i.email.getD "") = true <;>
        by_cases h3 : jsTrim (i.companyName.getD "") = "" <;>
          by_cases h4 : (i.supplierType.getD "") ∈ supplierTypes <;>
            simp [h1, h2, h3, h4]

/-- C6: `POST /api/sessions` fails with a 400 validation error exactly when a
required identity field (full name, email, company name, supplier type) is
absent or malformed, and otherwise persists a new session with status
`active` and an empty message list and answers with the stored session under
the freshly generated id.  `isEmail` is the external email validator, assumed
to reject the empty string. -/
theorem createSession_validates_and_persists
    (isEmail : String → Bool) (store : List Session) (u : Option RawUserInfo)
    (sid : String) (now : Nat)
    (hmail : ∀ e, isEmail e = true → e ≠ "") :
    (requiredFieldMissingOrMalformed isEmail u →
      (createSessionEndpoint isEmail store u sid now).1 = store ∧
      ∃ msg, (createSessionEndpoint isEmail store u sid now).2 =
        Except.error ⟨400, msg⟩) ∧
    (¬ requiredFieldMissingOrMalformed isEmail u → ∀ i, u = some i →
      createSessionEndpoint isEmail store u sid now =
        (store ++ [newSession i sid now],
         Except.ok ⟨sid, (newSession i sid now).userInfo, SessionStatus.active, now⟩) ∧
      (newSession i sid now).sessionId = sid ∧
      (newSession i sid now).status = SessionStatus.active ∧
      (newSession i sid now).messages = []) := by
  constructor
  · intro hm
    have hne : validationErrors isEmail u ≠ [] := by
      intro hc
      exact (validationErrors_nil_iff isEmail u).mp hc hm
    cases hv : validationErrors isEmail u with
    | nil => exact absurd hv hne
    | cons e es =>
      unfold createSessionEndpoint
      rw [hv]
      exact ⟨rfl, e, rfl⟩
  · intro hm i hi
    subst hi
    have hv : validationErrors isEmail (some i) = [] :=
      (validationErrors_nil_iff isEmail (some i)).mpr hm
    simp only [requiredFieldMissingOrMalformed, not_or] at hm
    obtain ⟨h1, h2, h3, h4⟩ := hm
    have hem : isEmail (i.email.getD "") = true := by
      cases hb : isEmail (i.email.getD "") with
      | false => exact absurd hb h2
      | true => rfl
    have hful : i.fullName.getD "" ≠ "" := by
      intro hc
      apply h1
      rw [hc]
      rfl
    have hcom : i.companyName.getD "" ≠ "" := by
      intro hc
      apply h3
      rw [hc]
      rfl
    have hemne : i.email.getD "" ≠ "" := hmail _ hem
    have hsup : (i.supplierType.getD "") ∈ supplierTypes := not_not.mp h4
    have hstne : i.supplierType.getD "" ≠ "" := by
      intro hc
      rw [hc] at hsup
      exact (by decide : "" ∉ supplierTypes) hsup
    have hfalsy : ¬(jsFalsy i.fullName = true ∨ jsFalsy i.email = true ∨
        jsFalsy i.companyName = true ∨ jsFalsy i.supplierType = true) := by
      simp [jsFalsy, hful, hemne, hcom, hstne]
    refine ⟨?_, rfl, rfl, rfl⟩
    simp only [createSessionEndpoint, hv, createSessionCtrl]
    rw [if_neg hfalsy]
    simp [newSession]

/-- The raw registration data of the spec's creation scenario. -/
def janeRaw : RawUserInfo :=
  ⟨some "Jane Doe", some "jane@x.com", some "Acme", none, some "Current Supplier",
   none, none⟩

/-- Witness for C6: the spec's creation scenario, with a validator that
rejects the empty string. -/
theorem createSession_validates_and_persists_witness :
    (∀ e, (fun e => !(e == "")) e = true → e ≠ "") ∧
    ¬ requiredFieldMissingOrMalformed (fun e => !(e == "")) (some janeRaw) ∧
    (createSessionEndpoint (fun e => !(e == "")) [] (some janeRaw) "new-sid" 7 =
      ([newSession janeRaw "new-sid" 7],
       Except.ok ⟨"new-sid", (newSession janeRaw "new-sid" 7).userInfo,
         SessionStatus.active, 7⟩) ∧
     (newSession janeRaw "new-sid" 7).sessionId = "new-sid" ∧
     (newSession janeRaw "new-sid" 7).status = SessionStatus.active ∧
     (newSession janeRaw "new-sid" 7).messages = []) := by
  have hmail : ∀ e, (fun e => !(e == "")) e = true → e ≠ "" := by
    intro e he hc
    subst hc
    simp at he
  refine ⟨hmail, by decide, ?_⟩
  exact (createSession_validates_and_persists (fun e => !(e == "")) [] (some janeRaw)
    "new-sid" 7 hmail).2 (by decide) janeRaw rfl

/-! Notification service isolation (C9). -/

/-- Result object of `sendSummaryEmail` in `emailService.js`: the function
catches every failure and returns `{success, message}` instead of throwing. -/
structure EmailResult where
  success : Bool
  message : String
deriving DecidableEq, Repr

/-- `sendSummaryEmail` of `emailService.js`: validate `ADMIN_EMAIL`, fetch
the session (`findOne({sessionId})`), build the summaries, hand the mail to
the transport.  `transport` is the outcome of the external
`transporter.sendMail` call (message id on success, error text on failure).
Every failure path is caught and reported as a `success := false` result. -/
def sendSummaryEmail (adminEmail : Option String) (store : List Session)
    (sid : String) (transport : Except String String) : EmailResult :=
  match adminEmail with
  | none => ⟨false, "Failed to send email: ADMIN_EMAIL not configured in .env file"⟩
  | some admin =>
    match findSession store sid with
    | none => ⟨false, "Failed to send email: Session not found: " ++ sid⟩
    | some _ =>
      match transport with
      | Except.error e => ⟨false, "Failed to send email: " ++ e⟩
      | Except.ok _ => ⟨true, "Email sent successfully to " ++ admin⟩

/-- Modelled from the spec: the session-close route glue
(`POST /api/sessions/:id/close`) is not among the sources; `closeChat` in the
UI controller calls it and explicitly continues when the email step fails,
and `sendSummaryEmail` itself never throws.  The flow ends the session first
and then invokes the notification service on the updated store. -/
def closeSessionFlow (store : List Session) (sid : String) (now : Nat)
    (adminEmail : Option String) (transport : Except String String) :
    List Session × EmailResult :=
  match (endSession store sid now).2 with
  | Except.error e => ((endSession store sid now).1, ⟨false, e.error⟩)
  | Except.ok _ =>
    ((endSession store sid now).1,
     sendSummaryEmail adminEmail (endSession store sid now).1 sid transport)

/-- Modelled from the spec: the expiry path of the notification — the sweep
transitions the sessions, then the notification service is invoked for an
expired session, out-of-band of the store. -/
def expireFlow (store : List Session) (timeout now : Nat) (sid : String)
    (adminEmail : Option String) (transport : Except String String) :
    List Session × EmailResult :=
  (sweepExpired store timeout now,
   sendSummaryEmail adminEmail (sweepExpired store timeout now) sid transport)

/-- C9: a notification (summary email) failure never rolls back or blocks
the terminal transition.  For any transport outcome and any admin-email
configuration, the store after the close flow is exactly the store after
`endSession` — the ended session stays `ended` — and the store after the
expiry flow is exactly the swept store. -/
theorem notification_failure_never_blocks_termination
    (store : List Session) (sid : String) (now timeout : Nat)
    (adminEmail : Option String) (transport : Except String String) (s : Session)
    (hnd : (store.map (·.sessionId)).Nodup)
    (hf : findActive store sid = some s) :
    (closeSessionFlow store sid now adminEmail transport).1 =
      (endSession store sid now).1 ∧
    findSession (closeSessionFlow store sid now adminEmail transport).1 sid =
      some (s.endSessionDoc now) ∧
    (s.endSessionDoc now).status = SessionStatus.ended ∧
    (expireFlow store timeout now sid adminEmail transport).1 =
      sweepExpired store timeout now := by
  have h1 : (closeSessionFlow store sid now adminEmail transport).1 =
      (endSession store sid now).1 := by
    unfold closeSessionFlow
    rcases (endSession store sid now).2 with e | r <;> rfl
  refine ⟨h1, ?_, rfl, rfl⟩
  rw [h1]
  exact endSession_after hnd hf

/-- Witness for C9: the transport fails (`SMTP down`), yet the session ends. -/
theorem notification_failure_never_blocks_termination_witness :
    (([sampleSession].map (·.sessionId)).Nodup ∧
      findActive [sampleSession] "sid-1" = some sampleSession) ∧
    (closeSessionFlow [sampleSession] "sid-1" 5 (some "admin@x.com")
        (Except.error "SMTP down")).2.success = false ∧
    findSession (closeSessionFlow [sampleSession] "sid-1" 5 (some "admin@x.com")
        (Except.error "SMTP down")).1 "sid-1" = some (sampleSession.endSessionDoc 5) :=
  ⟨⟨by decide, by decide⟩, by decide,
    (notification_failure_never_blocks_termination [sampleSession] "sid-1" 5 30
      (some "admin@x.com") (Except.error "SMTP down") sampleSession
      (by decide) (by decide)).2.1⟩

/-! Streaming Coordinator (C2). -/

/-- Concatenation of a list of strings in order. -/
def concatAll : List String → String
  | [] => ""
  | a :: l => a ++ concatAll l

/-- A wire event of the streaming protocol: the two status events, a chunk
event (`done:false`), the terminal event (`done:true`, with metadata), an
error event, or the literal `[DONE]` sentinel line. -/
inductive StreamEvent where
  | statusEv (status sessionId : String)
  | chunkEv (chunk accumulated : String)
  | terminalEv (chunk accumulated : String) (metadata : List (String × String))
  | errorEv (msg : String)
  | doneSentinel
deriving DecidableEq, Repr

/-- Modelled from the spec: the chunk-event phase of the stream producer
(the Python `POST /api/stream` backend is not among the sources; only its
wire format in `API_DOCUMENTATION.md` and its consumer `handleStreamingChat`
in `chat.js` are).  Each produced fragment is emitted with `accumulated`
equal to the concatenation of every fragment so far including itself. -/
def chunkEvents (acc : String) : List String → List StreamEvent
  | [] => []
  | c :: cs => StreamEvent.chunkEv c (acc ++ c) :: chunkEvents (acc ++ c) cs

/-- Modelled from the spec: the full event sequence of one stream — the
`retrieving` and `generating` status events, the chunk events, exactly one
terminal event `{chunk:"", accumulated:<full text>, done:true, metadata}`,
then the `[DONE]` sentinel, after which nothing more is emitted. -/
def streamEvents (sid : String) (chunks : List String)
    (md : List (String × String)) : List StreamEvent :=
  StreamEvent.statusEv "retrieving" sid :: StreamEvent.statusEv "generating" sid ::
    (chunkEvents "" chunks ++
      [StreamEvent.terminalEv "" (concatAll chunks) md, StreamEvent.doneSentinel])

/-- The `(chunk, accumulated)` payload of a `done:false` chunk event. -/
def chunkData : StreamEvent → Option (String × String)
  | StreamEvent.chunkEv c a => some (c, a)
  | _ => none

/-- The `(chunk, accumulated, metadata)` payload of the terminal event. -/
def terminalData : StreamEvent → Option (String × String × List (String × String))
  | StreamEvent.terminalEv c a md => some (c, a, md)
  | _ => none

lemma str_empty_append (s : String) : "" ++ s = s := by
  cases s
  rfl

lemma chunkEvents_chunks (acc : String) (l : List String) :
    ((chunkEvents acc l).filterMap chunkData).map (·.1) = l := by
  induction l generalizing acc with
  | nil => rfl
  | cons c cs ih => simp [chunkEvents, chunkData, ih]

lemma chunkEvents_accum (acc : String) (l : List String) (n : Nat)
    (h : n < l.length) :
    (((chunkEvents acc l).filterMap chunkData).getD n ("", "")).2 =
      acc ++ concatAll (l.take (n + 1)) := by
  induction l generalizing acc n with
  | nil => simp at h
  | cons c cs ih =>
    cases n with
    | zero => simp [chunkEvents, chunkData, concatAll, String.append_empty]
    | succ m =>
      have hm : m < cs.length := by simpa using h
      have := ih (acc ++ c) m hm
      simp only [chunkEvents, List.filterMap_cons, chunkData] at this ⊢
      rw [List.getD_cons_succ, this]
      simp [concatAll, String.append_assoc]

lemma chunkEvents_no_terminal (acc : String) (l : List String) :
    (chunkEvents acc l).filterMap terminalData = [] := by
  induction l generalizing acc with
  | nil => rfl
  | cons c cs ih => simp [chunkEvents, terminalData, ih]

lemma chunkEvents_no_done (acc : String) (l : List String) :
    StreamEvent.doneSentinel ∉ chunkEvents acc l := by
  induction l generalizing acc with
  | nil => simp [chunkEvents]
  | cons c cs ih => simp [chunkEvents, ih]

/-- C2: in every stream, each chunk event's `accumulated` equals the
concatenation of all chunk values emitted so far, including its own; the
chunk values in order are exactly the produced fragments; there is exactly
one terminal event, it carries the empty chunk and the full reply text; and
the stream ends with a single `[DONE]` sentinel after which no event
follows. -/
theorem streaming_accumulated_invariant (sid : String) (chunks : List String)
    (md : List (String × String)) :
    ((streamEvents sid chunks md).filterMap chunkData).map (·.1) = chunks ∧
    (∀ n, n < chunks.length →
      (((streamEvents sid chunks md).filterMap chunkData).getD n ("", "")).2 =
        concatAll (chunks.take (n + 1))) ∧
    (streamEvents sid chunks md).filterMap terminalData =
      [("", concatAll chunks, md)] ∧
    ∃ es, streamEvents sid chunks md = es ++ [StreamEvent.doneSentinel] ∧
      StreamEvent.doneSentinel ∉ es := by
  have hcd : (streamEvents sid chunks md).filterMap chunkData =
      (chunkEvents "" chunks).filterMap chunkData := by
    simp [streamEvents, chunkData, List.filterMap_append]
  refine ⟨?_, ?_, ?_, ?_⟩
  · rw [hcd]
    exact chunkEvents_chunks "" chunks
  · intro n hn
    rw [hcd, chunkEvents_accum "" chunks n hn, str_empty_append]
  · simp [streamEvents, terminalData, List.filterMap_append,
      chunkEvents_no_terminal]
  · refine ⟨StreamEvent.statusEv "retrieving" sid :: StreamEvent.statusEv "generating" sid ::
      (chunkEvents "" chunks ++ [StreamEvent.terminalEv "" (concatAll chunks) md]), ?_, ?_⟩
    · simp [streamEvents]
    · simp [chunkEvents_no_done]

/-- Witness for C2 on the two-fragment stream `["ab", "c"]`. -/
theorem streaming_accumulated_invariant_witness :
    (1 < (["ab", "c"] : List String).length) ∧
    (((streamEvents "s1" ["ab", "c"] [("k", "v")]).filterMap chunkData).getD 1
        ("", "")).2 = concatAll (["ab", "c"].take 2) :=
  ⟨by decide,
    (streaming_accumulated_invariant "s1" ["ab", "c"] [("k", "v")]).2.1 1 (by decide)⟩

/-! Frontend retry wrapper (C8). -/

/-- The `retry` settings of `frontend_new/js/config.js`:
`{maxAttempts: 3, delayMs: 1000}`. -/
structure RetryConfig where
  maxAttempts : Nat
  delayMs : Nat
deriving DecidableEq, Repr

/-- `API_CONFIG.retry` of `config.js`. -/
def apiRetryConfig : RetryConfig := ⟨3, 1000⟩

/-- A successful chat reply as far as the retry wrapper is concerned. -/
structure ChatReply where
  reply : String
deriving DecidableEq, Repr

deriving instance DecidableEq for Except

/-- The attempt loop of `sendMessageWithRetry` in `chatbot-api.js`:
`outcomes i` is what the i-th `sendMessage` call does; `rest` counts the
attempts still allowed after the current one (`attempt < maxAttempts`
continues, otherwise the last error is thrown).  Returns the number of the
last attempt made and the surfaced result. -/
def retryGo (outcomes : Nat → Except ErrResp ChatReply) (attempt : Nat) :
    Nat → Nat × Except ErrResp ChatReply
  | 0 => (attempt, outcomes attempt)
  | rest + 1 =>
    match outcomes attempt with
    | Except.ok r => (attempt, Except.ok r)
    | Except.error _ => retryGo outcomes (attempt + 1) rest

/-- `sendMessageWithRetry` of `chatbot-api.js`: run the attempt loop from
attempt 1 with `config.retry.maxAttempts` total attempts.  The loop catches
every error indiscriminately — there is no check of the error's kind. -/
def sendMessageWithRetry (outcomes : Nat → Except ErrResp ChatReply) :
    Nat × Except ErrResp ChatReply :=
  retryGo outcomes 1 (apiRetryConfig.maxAttempts - 1)

/-- C8 counterexample: a request that fails every attempt with the 404
`Active session not found` client error is attempted three times by
`sendMessageWithRetry`, not exactly once as the claim states; the error is
surfaced only after the third attempt. -/
theorem client_error_retried_counterexample :
    (sendMessageWithRetry fun _ => Except.error ⟨404, "Active session not found"⟩).1 = 3 ∧
    (sendMessageWithRetry fun _ => Except.error ⟨404, "Active session not found"⟩).1 ≠ 1 ∧
    (sendMessageWithRetry fun _ => Except.error ⟨404, "Active session not found"⟩).2 =
      Except.error ⟨404, "Active session not found"⟩ := by
  decide

/-- C8 amended: the frontend retry wrapper does not exempt client errors.
A `sendMessage` that fails on every allowed attempt — whatever the error,
including `NotFoundError`/`ValidationError` responses — is attempted exactly
`config.retry.maxAttempts = 3` times, and the last attempt's error is the one
surfaced to the caller. -/
theorem client_errors_retried_amended
    (outcomes : Nat → Except ErrResp ChatReply) (e : Nat → ErrResp)
    (hfail : ∀ i, 1 ≤ i → i ≤ apiRetryConfig.maxAttempts →
      outcomes i = Except.error (e i)) :
    sendMessageWithRetry outcomes =
      (apiRetryConfig.maxAttempts, Except.error (e apiRetryConfig.maxAttempts)) := by
  have h1 := hfail 1 (by decide) (by decide)
  have h2 := hfail 2 (by decide) (by decide)
  have h3 := hfail 3 (by decide) (by decide)
  simp [sendMessageWithRetry, apiRetryConfig, retryGo, h1, h2, h3]

/-- Witness for the amended C8: every attempt answers the 400 validation
error; three attempts are made and the error is surfaced. -/
theorem client_errors_retried_amended_witness :
    (∀ i, 1 ≤ i → i ≤ apiRetryConfig.maxAttempts →
      (fun _ => (Except.error ⟨400, "Missing required user information fields"⟩ :
        Except ErrResp ChatReply)) i =
        Except.error ((fun _ => (⟨400, "Missing required user information fields"⟩ :
          ErrResp)) i)) ∧
    sendMessageWithRetry
        (fun _ => Except.error ⟨400, "Missing required user information fields"⟩) =
      (3, Except.error ⟨400, "Missing required user information fields"⟩) :=
  ⟨fun _ _ _ => rfl,
    client_errors_retried_amended
      (fun _ => Except.error ⟨400, "Missing required user information fields"⟩)
      (fun _ => ⟨400, "Missing required user information fields"⟩)
      (fun _ _ _ => rfl)⟩

/-! Response Coordinator (C5). -/

/-- A labeled resource link; equality for deduplication purposes is by
`url`. -/
structure LinkRef where
  label : String
  url : String
deriving DecidableEq, Repr

/-- Modelled from the spec: a Topic Processor (the Python processors are not
among the sources) — a label, a detection predicate over the answer and
query texts, the ordered links it surfaces, and its own formatted block for
the single-processor path. -/
structure TopicProcessor where
  label : String
  matchesOn : String → String → Bool
  links : List LinkRef
  block : String

/-- Modelled from the spec: the url-deduplicating merge — walk the links in
order, "skipping any `LinkRef` whose `url` has already been added (dedup by
url, first occurrence wins)". -/
def dedupByUrl (seen : List String) : List LinkRef → List LinkRef
  | [] => []
  | l :: ls =>
    if l.url ∈ seen then dedupByUrl seen ls
    else l :: dedupByUrl (l.url :: seen) ls

/-- Markdown rendering of one link in the unified block. -/
def renderLink (l : LinkRef) : String :=
  "\n  • **[" ++ l.label ++ "](" ++ l.url ++ ")**"

/-- Markdown rendering of a list of links. -/
def renderLinks (ls : List LinkRef) : String :=
  concatAll (ls.map renderLink)

/-- The neutral introductory sentence of the unified multi-processor block
(per `Smart Coordination` in the repository notes). -/
def unifiedIntro : String :=
  "**For guidance on the processes mentioned above, please refer to the comprehensive guides below:**"

/-- The firing sub-sequence of the registered processors, in registration
order. -/
def firingOf (procs : List TopicProcessor) (answer query : String) :
    List TopicProcessor :=
  procs.filter fun p => p.matchesOn answer query

/-- All links of the firing processors in registration order. -/
def allLinks (ps : List TopicProcessor) : List LinkRef :=
  (ps.map (·.links)).flatten

/-- Modelled from the spec: `augment` of the Response Coordinator
(`response_coordinator.py` is not among the sources).  No firing processor:
the answer is unchanged.  Exactly one: append its own block.  Two or more:
append one unified block — the neutral sentence followed by the union of the
firing processors' links in registration order, deduplicated by url with the
first occurrence winning. -/
def augment (answer query : String) (procs : List TopicProcessor) : String :=
  match firingOf procs answer query with
  | [] => answer
  | [p] => answer ++ "\n\n" ++ p.block
  | ps => answer ++ "\n\n" ++ unifiedIntro ++ renderLinks (dedupByUrl [] (allLinks ps))

lemma dedupByUrl_sublist (seen : List String) (ls : List LinkRef) :
    List.Sublist (dedupByUrl seen ls) ls := by
  induction ls generalizing seen with
  | nil => simp [dedupByUrl]
  | cons l ls ih =>
    rw [dedupByUrl]
    by_cases hm : l.url ∈ seen
    · rw [if_pos hm]
      exact List.Sublist.cons l (ih seen)
    · rw [if_neg hm]
      exact List.Sublist.cons₂ l (ih (l.url :: seen))

lemma dedupByUrl_not_seen (seen : List String) (ls : List LinkRef) :
    ∀ l ∈ dedupByUrl seen ls, l.url ∉ seen := by
  induction ls generalizing seen with
  | nil => simp [dedupByUrl]
  | cons l ls ih =>
    intro x hx
    rw [dedupByUrl] at hx
    by_cases hm : l.url ∈ seen
    · rw [if_pos hm] at hx
      exact ih seen x hx
    · rw [if_neg hm] at hx
      rcases List.mem_cons.mp hx with rfl | hx'
      · exact hm
      · intro hc
        exact ih (l.url :: seen) x hx' (List.mem_cons_of_mem _ hc)

lemma dedupByUrl_nodup (seen : List String) (ls : List LinkRef) :
    ((dedupByUrl seen ls).map (·.url)).Nodup := by
  induction ls generalizing seen with
  | nil => simp [dedupByUrl]
  | cons l ls ih =>
    rw [dedupByUrl]
    by_cases hm : l.url ∈ seen
    · rw [if_pos hm]
      exact ih seen
    · rw [if_neg hm]
      simp only [List.map_cons, List.nodup_cons]
      refine ⟨?_, ih (l.url :: seen)⟩
      intro hc
      rcases List.mem_map.mp hc with ⟨x, hx, hxu⟩
      exact dedupByUrl_not_seen (l.url :: seen) ls x hx
        (hxu ▸ List.mem_cons_self l.url seen)

lemma dedupByUrl_mem_urls (seen : List String) (ls : List LinkRef) (u : String) :
    u ∈ (dedupByUrl seen ls).map (·.url) ↔
      u ∈ ls.map (·.url) ∧ u ∉ seen := by
  induction ls generalizing seen with
  | nil => simp [dedupByUrl]
  | cons l ls ih =>
    rw [dedupByUrl]
    by_cases hm : l.url ∈ seen
    · rw [if_pos hm]
      rw [ih seen]
      simp only [List.map_cons, List.mem_cons]
      constructor
      · rintro ⟨h1, h2⟩
        exact ⟨Or.inr h1, h2⟩
      · rintro ⟨h1, h2⟩
        rcases h1 with rfl | h1
        · exact absurd hm h2
        · exact ⟨h1, h2⟩
    · rw [if_neg hm]
      simp only [List.map_cons, List.mem_cons]
      rw [ih (l.url :: seen)]
      simp only [List.mem_cons, not_or]
      constructor
      · rintro (rfl | ⟨h1, h2, h3⟩)
        · exact ⟨Or.inl rfl, hm⟩
        · exact ⟨Or.inr h1, h3⟩
      · rintro ⟨h1, h2⟩
        rcases h1 with rfl | h1
        · exact Or.inl rfl
        · by_cases hu : u = l.url
          · exact Or.inl hu
          · exact Or.inr ⟨h1, hu, h2⟩

lemma dedupByUrl_first_wins (seen : List String) (ls : List LinkRef) :
    ∀ l ∈ dedupByUrl seen ls,
      ls.find? (fun x => decide (x.url = l.url)) = some l := by
  induction ls generalizing seen with
  | nil => simp [dedupByUrl]
  | cons hd ls ih =>
    intro x hx
    rw [dedupByUrl] at hx
    by_cases hm : hd.url ∈ seen
    · rw [if_pos hm] at hx
      have hxs := dedupByUrl_not_seen seen ls x hx
      have hne : hd.url ≠ x.url := fun hc => hxs (hc ▸ hm)
      rw [List.find?_cons, decide_eq_false hne]
      exact ih seen x hx
    · rw [if_neg hm] at hx
      rcases List.mem_cons.mp hx with rfl | hx'
      · rw [List.find?_cons, decide_eq_true rfl]
      · have hxs := dedupByUrl_not_seen (hd.url :: seen) ls x hx'
        have hne : hd.url ≠ x.url := by
          intro hc
          exact hxs (hc ▸ List.mem_cons_self hd.url seen)
        rw [List.find?_cons, decide_eq_false hne]
        exact ih (hd.url :: seen) x hx'

/-- C5: when two or more topic processors fire for the same answer, `augment`
appends one unified block built from the url-deduplicated union of all firing
processors' links, in processor registration order (the firing list is a
sub-sequence of the registered list and the merged links a sub-sequence of
their concatenated links); every url of any firing processor appears in the
merged list, each url appears exactly once, and the kept `LinkRef` is always
the first occurrence of its url. -/
theorem multi_processor_merge_dedups
    (answer query : String) (procs : List TopicProcessor)
    (h2 : 2 ≤ (firingOf procs answer query).length) :
    augment answer query procs =
      answer ++ "\n\n" ++ unifiedIntro ++
        renderLinks (dedupByUrl [] (allLinks (firingOf procs answer query))) ∧
    List.Sublist (firingOf procs answer query) procs ∧
    List.Sublist (dedupByUrl [] (allLinks (firingOf procs answer query)))
      (allLinks (firingOf procs answer query)) ∧
    ((dedupByUrl [] (allLinks (firingOf procs answer query))).map (·.url)).Nodup ∧
    (∀ u, u ∈ (allLinks (firingOf procs answer query)).map (·.url) ↔
      u ∈ (dedupByUrl [] (allLinks (firingOf procs answer query))).map (·.url)) ∧
    (∀ l ∈ dedupByUrl [] (allLinks (firingOf procs answer query)),
      (allLinks (firingOf procs answer query)).find?
        (fun x => decide (x.url = l.url)) = some l) := by
  refine ⟨?_, List.filter_sublist procs, dedupByUrl_sublist [] _, dedupByUrl_nodup [] _,
    ?_, dedupByUrl_first_wins [] _⟩
  · cases hfi : firingOf procs answer query with
    | nil => rw [hfi] at h2; simp at h2
    | cons a tl =>
      cases tl with
      | nil => rw [hfi] at h2; simp at h2
      | cons b tl2 =>
        simp only [augment, hfi]
  · intro u
    rw [dedupByUrl_mem_urls]
    simp

/-- Witness for C5: two processors both fire and both carry the url `u1`;
the merged list keeps `u1` once (first occurrence) and `u2` once. -/
theorem multi_processor_merge_dedups_witness :
    (2 ≤ (firingOf
        [⟨"APQP", fun _ _ => true, [⟨"A", "u1"⟩], "a-block"⟩,
         ⟨"PPAP", fun _ _ => true, [⟨"B", "u1"⟩, ⟨"C", "u2"⟩], "b-block"⟩]
        "ans" "qry").length) ∧
    (dedupByUrl [] (allLinks (firingOf
        [⟨"APQP", fun _ _ => true, [⟨"A", "u1"⟩], "a-block"⟩,
         ⟨"PPAP", fun _ _ => true, [⟨"B", "u1"⟩, ⟨"C", "u2"⟩], "b-block"⟩]
        "ans" "qry"))).map (·.url) = ["u1", "u2"] ∧
    ((dedupByUrl [] (allLinks (firingOf
        [⟨"APQP", fun _ _ => true, [⟨"A", "u1"⟩], "a-block"⟩,
         ⟨"PPAP", fun _ _ => true, [⟨"B", "u1"⟩, ⟨"C", "u2"⟩], "b-block"⟩]
        "ans" "qry"))).map (·.url)).Nodup :=
  ⟨Nat.le_refl 2, rfl,
    (multi_processor_merge_dedups "ans" "qry"
      [⟨"APQP", fun _ _ => true, [⟨"A", "u1"⟩], "a-block"⟩,
       ⟨"PPAP", fun _ _ => true, [⟨"B", "u1"⟩, ⟨"C", "u2"⟩], "b-block"⟩]
      (Nat.le_refl 2)).2.2.2.1⟩

/-! HTML summary escaping (C10). -/

/-- One step of `escapeHtml` in `emailService.js`
(`text.replace(/[&<>"']/g, m => map[m])`): a special character becomes its
entity, every other character stays. -/
def escapeChar (c : Char) : List Char :=
  if c = '&' then "&amp;".data
  else if c = '<' then "&lt;".data
  else if c = '>' then "&gt;".data
  else if c = '"' then "&quot;".data
  else if c = Char.ofNat 39 then "&#039;".data
  else [c]

/-- `escapeHtml` applied characterwise to a character list. -/
def escapeList : List Char → List Char
  | [] => []
  | c :: cs => escapeChar c ++ escapeList cs

/-- `escapeHtml` of `emailService.js`. -/
def escapeHtml (t : String) : String := ⟨escapeList t.data⟩

/-- The calendar components `formatTimestamp` reads off a JS `Date`. -/
structure DateParts where
  year : Nat
  month : Nat
  day : Nat
  hour : Nat
  minute : Nat
deriving DecidableEq, Repr

/-- `String(x).padStart(2, '0')` as used by `formatTimestamp`. -/
def pad2 (n : Nat) : String :=
  if (toString n).length < 2 then "0" ++ toString n else toString n

/-- `formatTimestamp` of `emailService.js`: `YYYY-MM-DD HH:MM` built from the
date parts (the `Date` getters themselves belong to the JS runtime; a
`dateOf : Nat → DateParts` parameter supplies them, `getMonth() + 1`
included). -/
def formatTimestamp (d : DateParts) : String :=
  toString d.year ++ "-" ++ pad2 d.month ++ "-" ++ pad2 d.day ++ " " ++
    pad2 d.hour ++ ":" ++ pad2 d.minute

/-- The template of one message block of `buildHtmlSummary` up to the
`message-text` div: sender class and label and the formatted time. -/
def msgHead (dateOf : Nat → DateParts) (msg : Message) : String :=
  let senderClass := if msg.sender = "user" then "user" else "bot"
  let senderLabel := if msg.sender = "user" then "User" else "Bot"
  let time := formatTimestamp (dateOf msg.timestamp)
  "\n      <div class=\"message message-" ++ senderClass ++
    "\">\n        <div class=\"message-header\">\n          <span class=\"message-sender message-sender-" ++
    senderClass ++ "\">" ++ senderLabel ++
    "</span>\n          <span class=\"message-time\">" ++ time ++
    "</span>\n        </div>\n        <div class=\"message-text\">"

/-- The template after the escaped message text: close the text div and, when
metadata is present, add the metadata div with the escaped stringified
metadata. -/
def msgTail (stringify : List (String × String) → String) (msg : Message) : String :=
  "</div>\n      " ++
    (if msg.metadata ≠ [] then
      "\n        <div class=\"metadata\">\n          <strong>Metadata:</strong> " ++
        escapeHtml (stringify msg.metadata) ++ "\n        </div>\n        "
     else "") ++ "</div>"

/-- One message block of the transcript section of `buildHtmlSummary`
(`emailService.js`, the `messages.forEach` body): the header template, the
escaped message text, and the tail with the escaped stringified metadata when
present.  `dateOf` models `new Date(timestamp)` and `stringify` models
`JSON.stringify(·, null, 2)`. -/
def messageHtml (dateOf : Nat → DateParts)
    (stringify : List (String × String) → String) (msg : Message) : String :=
  msgHead dateOf msg ++ escapeHtml msg.text ++ msgTail stringify msg

lemma str_count_append (a b : String) (x : Char) :
    (a ++ b).data.count x = a.data.count x + b.data.count x := by
  rw [String.data_append, List.count_append]

/-- The conversation-transcript section of `buildHtmlSummary`: the
no-messages paragraph, or the concatenation of the message blocks. -/
def transcriptHtml (dateOf : Nat → DateParts)
    (stringify : List (String × String) → String) (msgs : List Message) : String :=
  if msgs = [] then
    "<p style=\"color: #666; font-style: italic;\">(No messages in this session)</p>"
  else concatAll (msgs.map (messageHtml dateOf stringify))

lemma escapeChar_count_special (c x : Char)
    (hx : x = '<' ∨ x = '>' ∨ x = '"' ∨ x = Char.ofNat 39) :
    (escapeChar c).count x = 0 := by
  unfold escapeChar
  by_cases h1 : c = '&'
  · rw [if_pos h1]
    rcases hx with rfl | rfl | rfl | rfl <;> decide
  · rw [if_neg h1]
    by_cases h2 : c = '<'
    · rw [if_pos h2]
      rcases hx with rfl | rfl | rfl | rfl <;> decide
    · rw [if_neg h2]
      by_cases h3 : c = '>'
      · rw [if_pos h3]
        rcases hx with rfl | rfl | rfl | rfl <;> decide
      · rw [if_neg h3]
        by_cases h4 : c = '"'
        · rw [if_pos h4]
          rcases hx with rfl | rfl | rfl | rfl <;> decide
        · rw [if_neg h4]
          by_cases h5 : c = Char.ofNat 39
          · rw [if_pos h5]
            rcases hx with rfl | rfl | rfl | rfl <;> decide
          · rw [if_neg h5]
            rw [List.count_eq_zero]
            intro hc
            rcases List.mem_singleton.mp hc with rfl
            rcases hx with rfl | rfl | rfl | rfl
            · exact h2 rfl
            · exact h3 rfl
            · exact h4 rfl
            · exact h5 rfl

lemma escapeList_count_special (x : Char)
    (hx : x = '<' ∨ x = '>' ∨ x = '"' ∨ x = Char.ofNat 39) :
    ∀ l : List Char, (escapeList l).count x = 0
  | [] => rfl
  | c :: cs => by
    rw [escapeList, List.count_append, escapeChar_count_special c x hx,
      escapeList_count_special x hx cs]

lemma escapeHtml_count_lt (t : String) : (escapeHtml t).data.count '<' = 0 :=
  escapeList_count_special '<' (Or.inl rfl) t.data

lemma escapeHtml_count_gt (t : String) : (escapeHtml t).data.count '>' = 0 :=
  escapeList_count_special '>' (Or.inr (Or.inl rfl)) t.data

/-- C10: the transcript section of `buildHtmlSummary` embeds each message's
text and metadata only through `escapeHtml`, which eliminates every literal
`<`, `>`, `"` and apostrophe, so message content never contributes raw HTML
markup: the number of `<` and `>` characters of a message block does not
depend on the message's text or metadata content.  (The `userInfo` fields of
the summary are interpolated without this escaping — that part of the claim
concerns other sections and is visible in `buildHtmlSummary` directly.) -/
theorem html_summary_escapes_message_content
    (dateOf : Nat → DateParts) (stringify : List (String × String) → String)
    (msg : Message) (t : String) (t₁ t₂ : String)
    (md₁ md₂ : List (String × String)) (msgs : List Message)
    (h₁ : md₁ ≠ []) (h₂ : md₂ ≠ []) (hmsgs : msgs ≠ []) :
    ('<' ∉ (escapeHtml t).data ∧ '>' ∉ (escapeHtml t).data ∧
      '"' ∉ (escapeHtml t).data ∧ Char.ofNat 39 ∉ (escapeHtml t).data) ∧
    (∃ pre post, messageHtml dateOf stringify msg =
      pre ++ escapeHtml msg.text ++ post) ∧
    ((messageHtml dateOf stringify { msg with text := t₁, metadata := md₁ }).data.count '<' =
      (messageHtml dateOf stringify { msg with text := t₂, metadata := md₂ }).data.count '<') ∧
    ((messageHtml dateOf stringify { msg with text := t₁, metadata := md₁ }).data.count '>' =
      (messageHtml dateOf stringify { msg with text := t₂, metadata := md₂ }).data.count '>') ∧
    transcriptHtml dateOf stringify msgs =
      concatAll (msgs.map (messageHtml dateOf stringify)) := by
  refine ⟨⟨?_, ?_, ?_, ?_⟩, ⟨_, _, rfl⟩, ?_, ?_, ?_⟩
  · exact List.count_eq_zero.mp (escapeHtml_count_lt t)
  · exact List.count_eq_zero.mp (escapeHtml_count_gt t)
  · exact List.count_eq_zero.mp (escapeList_count_special '"'
      (Or.inr (Or.inr (Or.inl rfl))) t.data)
  · exact List.count_eq_zero.mp (escapeList_count_special (Char.ofNat 39)
      (Or.inr (Or.inr (Or.inr rfl))) t.data)
  · unfold messageHtml msgTail
    have hh : msgHead dateOf { msg with text := t₁, metadata := md₁ } =
        msgHead dateOf { msg with text := t₂, metadata := md₂ } := rfl
    rw [hh, if_pos h₁, if_pos h₂]
    simp only [str_count_append, escapeHtml_count_lt]
  · unfold messageHtml msgTail
    have hh : msgHead dateOf { msg with text := t₁, metadata := md₁ } =
        msgHead dateOf { msg with text := t₂, metadata := md₂ } := rfl
    rw [hh, if_pos h₁, if_pos h₂]
    simp only [str_count_append, escapeHtml_count_gt]
  · rw [transcriptHtml, if_neg hmsgs]

/-- Witness for C10: a message whose text is raw markup and whose metadata is
non-empty contributes no `<` beyond the fixed template. -/
theorem html_summary_escapes_message_content_witness :
    (([("k", "v")] : List (String × String)) ≠ [] ∧
      ([("q", "r")] : List (String × String)) ≠ [] ∧
      ([(⟨"bot", "x", 0, []⟩ : Message)] ≠ ([] : List Message))) ∧
    ((messageHtml (fun _ => ⟨2025, 10, 20, 10, 15⟩) (fun _ => "meta")
        { (⟨"bot", "x", 0, []⟩ : Message) with
            text := "<script>alert(1)</script>", metadata := [("k", "v")] }).data.count '<' =
      (messageHtml (fun _ => ⟨2025, 10, 20, 10, 15⟩) (fun _ => "meta")
        { (⟨"bot", "x", 0, []⟩ : Message) with
            text := "safe", metadata := [("q", "r")] }).data.count '<') :=
  ⟨⟨by decide, by decide, by decide⟩,
    (html_summary_escapes_message_content (fun _ => ⟨2025, 10, 20, 10, 15⟩)
      (fun _ => "meta") ⟨"bot", "x", 0, []⟩ "t" "<script>alert(1)</script>" "safe"
      [("k", "v")] [("q", "r")] [⟨"bot", "x", 0, []⟩]
      (by decide) (by decide) (by decide)).2.2.1⟩

/-! Session lifecycle invariants (C4). -/

/-- One session-store operation of a lifecycle history, with the request data
it carries (`sid` of `create` stands for the generated `uuidv4()`). -/
inductive SessionOp where
  | create (info : Option RawUserInfo) (sid : String)
  | appendUser (sid text : String)
  | appendBot (sid text : String) (metadata : List (String × String))
  | touch (sid : String)
  | endOp (sid : String)
  | sweep (timeout : Nat)
deriving DecidableEq, Repr

/-- Apply one operation at time `now`, keeping the store (an error response
leaves it unchanged). -/
def applyOp (store : List Session) (op : SessionOp) (now : Nat) : List Session :=
  match op with
  | SessionOp.create info sid => (createSessionCtrl store info sid now).1
  | SessionOp.appendUser sid t => (addUserMessage store sid t now).1
  | SessionOp.appendBot sid t md => (addBotMessage store sid t md now).1
  | SessionOp.touch sid => (updateActivity store sid now).1
  | SessionOp.endOp sid => (endSession store sid now).1
  | SessionOp.sweep timeout => sweepExpired store timeout now

/-- Run a timed operation history in order. -/
def runOps (store : List Session) : List (SessionOp × Nat) → List Session
  | [] => store
  | (op, t) :: rest => runOps (applyOp store op t) rest

/-- Per-document well-formedness at time `now`: activity not in the future,
message timestamps not after the last activity and non-decreasing. -/
def docWF (now : Nat) (s : Session) : Prop :=
  s.lastActivity ≤ now ∧
  (∀ m ∈ s.messages, m.timestamp ≤ s.lastActivity) ∧
  List.Pairwise (fun a b => a.timestamp ≤ b.timestamp) s.messages

instance (now : Nat) (s : Session) : Decidable (docWF now s) := by
  unfold docWF
  infer_instance

/-- Store well-formedness: distinct session ids, well-formed documents. -/
def storeWF (now : Nat) (store : List Session) : Prop :=
  (store.map (·.sessionId)).Nodup ∧ ∀ s ∈ store, docWF now s

instance (now : Nat) (store : List Session) : Decidable (storeWF now store) := by
  unfold storeWF
  infer_instance

/-- How one session document may evolve across operations: stable id, a
terminal (`ended`/`expired`) status never back to `active`, non-decreasing
`lastActivity`, append-only messages. -/
def evolves (old new : Session) : Prop :=
  new.sessionId = old.sessionId ∧
  (old.status ≠ SessionStatus.active → new.status ≠ SessionStatus.active) ∧
  old.lastActivity ≤ new.lastActivity ∧
  old.messages <+: new.messages

lemma evolves_refl (s : Session) : evolves s s :=
  ⟨rfl, fun h => h, Nat.le_refl _, List.prefix_refl _⟩

lemma evolves_trans {a b c : Session} (h1 : evolves a b) (h2 : evolves b c) :
    evolves a c :=
  ⟨h2.1.trans h1.1, fun h => h2.2.1 (h1.2.1 h), h1.2.2.1.trans h2.2.2.1,
    h1.2.2.2.trans h2.2.2.2⟩

/-- Default document for positional indexing. -/
def defaultSession : Session :=
  ⟨"", ⟨"", "", "", "", "", none, none⟩, [], SessionStatus.active, 0, 0, none⟩

lemma docWF_mono {clock t : Nat} (h : clock ≤ t) {s : Session}
    (hs : docWF clock s) : docWF t s :=
  ⟨hs.1.trans h, hs.2⟩

lemma saveSession_getD (store : List Session) (s' : Session) (i : Nat)
    (hi : i < store.length) :
    (saveSession store s').getD i defaultSession =
      if (store.getD i defaultSession).sessionId = s'.sessionId then s'
      else store.getD i defaultSession := by
  unfold saveSession
  rw [List.getD_eq_getElem _ _ (by simpa using hi), List.getElem_map,
    List.getD_eq_getElem _ _ hi]

lemma getD_mem (store : List Session) (i : Nat) (hi : i < store.length) :
    store.getD i defaultSession ∈ store := by
  rw [List.getD_eq_getElem _ _ hi]
  exact List.getElem_mem hi

lemma getD_id_eq {store : List Session} {sid : String} {s : Session}
    (hnd : (store.map (·.sessionId)).Nodup)
    (hf : findActive store sid = some s) (i : Nat) (hi : i < store.length)
    (hid : (store.getD i defaultSession).sessionId = s.sessionId) :
    store.getD i defaultSession = s :=
  nodup_id_eq hnd (getD_mem store i hi) (findActive_spec hf).1 hid

/-- The ids a history's `create` operations introduce. -/
def createdIds : List (SessionOp × Nat) → List String
  | [] => []
  | (SessionOp.create _ sid, _) :: rest => sid :: createdIds rest
  | _ :: rest => createdIds rest

/-- The ids one operation introduces. -/
def opCreated : SessionOp → List String
  | SessionOp.create _ sid => [sid]
  | _ => []

/-- Non-decreasing operation times from a starting clock. -/
def timesMono : Nat → List (SessionOp × Nat) → Bool
  | _, [] => true
  | clock, (_, t) :: rest => decide (clock ≤ t) && timesMono t rest

/-- Core step fact: replacing the found active document by an evolved,
well-formed document preserves the invariants pointwise. -/
lemma save_step {store : List Session} {sid : String} {s : Session}
    (s' : Session) (t clock : Nat)
    (hwf : storeWF clock store) (hct : clock ≤ t)
    (hf : findActive store sid = some s)
    (hid : s'.sessionId = s.sessionId)
    (hev : evolves s s') (hwf' : docWF t s') :
    storeWF t (saveSession store s') ∧
    store.length ≤ (saveSession store s').length ∧
    (∀ i, i < store.length →
      evolves (store.getD i defaultSession)
        ((saveSession store s').getD i defaultSession)) ∧
    (saveSession store s').map (·.sessionId) = store.map (·.sessionId) := by
  obtain ⟨hnd, hdocs⟩ := hwf
  refine ⟨⟨?_, ?_⟩, ?_, ?_, saveSession_ids store s'⟩
  · rw [saveSession_ids]
    exact hnd
  · intro d hd
    unfold saveSession at hd
    rcases List.mem_map.mp hd with ⟨orig, ho, heq⟩
    by_cases hc : orig.sessionId = s'.sessionId
    · rw [if_pos hc] at heq
      exact heq ▸ hwf'
    · rw [if_neg hc] at heq
      exact heq ▸ docWF_mono hct (hdocs orig ho)
  · unfold saveSession
    simp
  · intro i hi
    rw [saveSession_getD store s' i hi]
    by_cases hc : (store.getD i defaultSession).sessionId = s'.sessionId
    · rw [if_pos hc]
      have heq : store.getD i defaultSession = s :=
        getD_id_eq hnd hf i hi (hid ▸ hc)
      rw [heq]
      exact hev
    · rw [if_neg hc]
      exact evolves_refl _

/-- Trivial step fact for operations that leave the store unchanged. -/
lemma unchanged_step (store : List Session) (t clock : Nat)
    (hwf : storeWF clock store) (hct : clock ≤ t) :
    storeWF t store ∧
    store.length ≤ store.length ∧
    (∀ i, i < store.length →
      evolves (store.getD i defaultSession) (store.getD i defaultSession)) :=
  ⟨⟨hwf.1, fun s hs => docWF_mono hct (hwf.2 s hs)⟩, Nat.le_refl _,
    fun _ _ => evolves_refl _⟩

lemma addMessage_wf {clock t : Nat} {s : Session} (hs : docWF clock s)
    (hct : clock ≤ t) (sender text : String) (md : List (String × String)) :
    evolves s (s.addMessage sender text md t) ∧
    docWF t (s.addMessage sender text md t) := by
  obtain ⟨hla, hts, hpw⟩ := hs
  refine ⟨⟨rfl, fun h => h, hla.trans hct, List.prefix_append _ _⟩,
    Nat.le_refl t, ?_, ?_⟩
  · intro m hm
    rcases List.mem_append.mp hm with hm | hm
    · exact (hts m hm).trans (hla.trans hct)
    · rcases List.mem_singleton.mp hm with rfl
      exact Nat.le_refl t
  · rw [Session.addMessage, List.pairwise_append]
    refine ⟨hpw, List.pairwise_singleton _ _, ?_⟩
    intro a ha b hb
    rcases List.mem_singleton.mp hb with rfl
    exact (hts a ha).trans (hla.trans hct)

lemma endDoc_wf {clock t : Nat} {s : Session} (hs : docWF clock s)
    (hct : clock ≤ t) :
    evolves s (s.endSessionDoc t) ∧ docWF t (s.endSessionDoc t) := by
  obtain ⟨hla, hts, hpw⟩ := hs
  exact ⟨⟨rfl, fun _ => by simp [Session.endSessionDoc], Nat.le_refl _,
      List.prefix_refl _⟩,
    hla.trans hct, hts, hpw⟩

lemma touch_wf {clock t : Nat} {s : Session} (hs : docWF clock s)
    (hct : clock ≤ t) :
    evolves s { s with lastActivity := t } ∧
    docWF t { s with lastActivity := t } := by
  obtain ⟨hla, hts, hpw⟩ := hs
  exact ⟨⟨rfl, fun h => h, hla.trans hct, List.prefix_refl _⟩,
    Nat.le_refl t, fun m hm => (hts m hm).trans (hla.trans hct), hpw⟩

lemma sweep_ids (store : List Session) (timeout now : Nat) :
    (sweepExpired store timeout now).map (·.sessionId) =
      store.map (·.sessionId) := by
  unfold sweepExpired
  rw [List.map_map]
  apply List.map_congr_left
  intro s _
  by_cases hc : s.status = SessionStatus.active ∧ timeout < now - s.lastActivity
  · simp [Function.comp, hc]
  · simp [Function.comp, hc]

lemma sweep_getD (store : List Session) (timeout t : Nat) (i : Nat)
    (hi : i < store.length) :
    (sweepExpired store timeout t).getD i defaultSession =
      if (store.getD i defaultSession).status = SessionStatus.active ∧
          timeout < t - (store.getD i defaultSession).lastActivity then
        { store.getD i defaultSession with
            status := SessionStatus.expired, endedAt := some t }
      else store.getD i defaultSession := by
  unfold sweepExpired
  rw [List.getD_eq_getElem _ _ (by simpa using hi), List.getElem_map,
    List.getD_eq_getElem _ _ hi]

lemma sweep_step (store : List Session) (timeout t clock : Nat)
    (hwf : storeWF clock store) (hct : clock ≤ t) :
    storeWF t (sweepExpired store timeout t) ∧
    store.length ≤ (sweepExpired store timeout t).length ∧
    (∀ i, i < store.length →
      evolves (store.getD i defaultSession)
        ((sweepExpired store timeout t).getD i defaultSession)) ∧
    (sweepExpired store timeout t).map (·.sessionId) = store.map (·.sessionId) := by
  obtain ⟨hnd, hdocs⟩ := hwf
  refine ⟨⟨?_, ?_⟩, ?_, ?_, sweep_ids store timeout t⟩
  · rw [sweep_ids]
    exact hnd
  · intro d hd
    unfold sweepExpired at hd
    rcases List.mem_map.mp hd with ⟨orig, ho, heq⟩
    have horig := docWF_mono hct (hdocs orig ho)
    by_cases hc : orig.status = SessionStatus.active ∧
        timeout < t - orig.lastActivity
    · rw [if_pos hc] at heq
      exact heq ▸ ⟨horig.1, horig.2.1, horig.2.2⟩
    · rw [if_neg hc] at heq
      exact heq ▸ horig
  · unfold sweepExpired
    simp
  · intro i hi
    rw [sweep_getD store timeout t i hi]
    by_cases hc : (store.getD i defaultSession).status = SessionStatus.active ∧
        timeout < t - (store.getD i defaultSession).lastActivity
    · rw [if_pos hc]
      exact ⟨rfl, fun h => absurd hc.1 h, Nat.le_refl _, List.prefix_refl _⟩
    · rw [if_neg hc]
      exact evolves_refl _

lemma applyOp_step (store : List Session) (op : SessionOp) (t clock : Nat)
    (hwf : storeWF clock store) (hct : clock ≤ t)
    (hfresh : ∀ info sid, op = SessionOp.create info sid →
      sid ∉ store.map (·.sessionId)) :
    storeWF t (applyOp store op t) ∧
    store.length ≤ (applyOp store op t).length ∧
    (∀ i, i < store.length →
      evolves (store.getD i defaultSession)
        ((applyOp store op t).getD i defaultSession)) ∧
    List.Sublist ((applyOp store op t).map (·.sessionId))
      (store.map (·.sessionId) ++ opCreated op) := by
  have hnochange : ∀ (res : List Session), res = store →
      storeWF t res ∧ store.length ≤ res.length ∧
      (∀ i, i < store.length →
        evolves (store.getD i defaultSession) (res.getD i defaultSession)) ∧
      List.Sublist (res.map (·.sessionId))
        (store.map (·.sessionId) ++ opCreated op) := by
    intro res hres
    subst hres
    obtain ⟨ha, hb, hcv⟩ := unchanged_step res t clock hwf hct
    exact ⟨ha, hb, hcv, List.sublist_append_left _ _⟩
  have hsave : ∀ {sid : String} {s : Session} (s' : Session),
      findActive store sid = some s → s'.sessionId = s.sessionId →
      evolves s s' → docWF t s' →
      storeWF t (saveSession store s') ∧
      store.length ≤ (saveSession store s').length ∧
      (∀ i, i < store.length →
        evolves (store.getD i defaultSession)
          ((saveSession store s').getD i defaultSession)) ∧
      List.Sublist ((saveSession store s').map (·.sessionId))
        (store.map (·.sessionId) ++ opCreated op) := by
    intro sid s s' hf hid hev hwf'
    obtain ⟨ha, hb, hcv, hids⟩ := save_step s' t clock hwf hct hf hid hev hwf'
    refine ⟨ha, hb, hcv, ?_⟩
    rw [hids]
    exact List.sublist_append_left _ _
  cases op with
  | create info sid =>
    cases info with
    | none => exact hnochange _ (by simp [applyOp, createSessionCtrl])
    | some i =>
      by_cases hfal : jsFalsy i.fullName = true ∨ jsFalsy i.email = true ∨
          jsFalsy i.companyName = true ∨ jsFalsy i.supplierType = true
      · apply hnochange
        simp only [applyOp, createSessionCtrl]
        rw [if_pos hfal]
      · have hres : applyOp store (SessionOp.create (some i) sid) t =
            store ++ [newSession i sid t] := by
          simp only [applyOp, createSessionCtrl]
          rw [if_neg hfal]
        rw [hres]
        have hids : (store ++ [newSession i sid t]).map (·.sessionId) =
            store.map (·.sessionId) ++ [sid] := by
          simp [newSession]
        have hsid : sid ∉ store.map (·.sessionId) := hfresh i sid rfl
        refine ⟨⟨?_, ?_⟩, ?_, ?_, ?_⟩
        · rw [hids, List.nodup_append]
          refine ⟨hwf.1, List.nodup_singleton _, ?_⟩
          intro a ha hb
          rcases List.mem_singleton.mp hb with rfl
          exact hsid ha
        · intro d hd
          rcases List.mem_append.mp hd with hd | hd
          · exact docWF_mono hct (hwf.2 d hd)
          · rcases List.mem_singleton.mp hd with rfl
            exact ⟨Nat.le_refl t, fun m hm => absurd hm (by simp [newSession]),
              by simp [newSession]⟩
        · simp
        · intro j hj
          rw [List.getD_append _ _ _ _ hj]
          exact evolves_refl _
        · rw [hids]
          exact List.Sublist.refl _
  | appendUser sid txt =>
    by_cases htxt : jsTrim txt = ""
    · exact hnochange _ (by simp [applyOp, addUserMessage, htxt])
    · cases hfa : findActive store sid with
      | none => exact hnochange _ (by simp [applyOp, addUserMessage, htxt, hfa])
      | some s =>
        have hok := @addUserMessage_ok store sid txt t s hfa htxt
        have hres : applyOp store (SessionOp.appendUser sid txt) t =
            saveSession store (s.addMessage "user" (jsTrim txt) [] t) := by
          simp only [applyOp]
          rw [hok]
        rw [hres]
        have ham := addMessage_wf (hwf.2 s (findActive_spec hfa).1) hct
          "user" (jsTrim txt) []
        exact hsave _ hfa rfl ham.1 ham.2
  | appendBot sid txt md =>
    by_cases htxt : jsTrim txt = ""
    · exact hnochange _ (by simp [applyOp, addBotMessage, htxt])
    · cases hfa : findActive store sid with
      | none => exact hnochange _ (by simp [applyOp, addBotMessage, htxt, hfa])
      | some s =>
        have hok := @addBotMessage_ok store sid txt md t s hfa htxt
        have hres : applyOp store (SessionOp.appendBot sid txt md) t =
            saveSession store (s.addMessage "bot" (jsTrim txt) md t) := by
          simp only [applyOp]
          rw [hok]
        rw [hres]
        have ham := addMessage_wf (hwf.2 s (findActive_spec hfa).1) hct
          "bot" (jsTrim txt) md
        exact hsave _ hfa rfl ham.1 ham.2
  | touch sid =>
    cases hfa : findActive store sid with
    | none => exact hnochange _ (by simp [applyOp, updateActivity, hfa])
    | some s =>
      have hres : applyOp store (SessionOp.touch sid) t =
          saveSession store { s with lastActivity := t } := by
        simp only [applyOp, updateActivity]
        rw [hfa]
      rw [hres]
      have ham := touch_wf (hwf.2 s (findActive_spec hfa).1) hct
      exact hsave _ hfa rfl ham.1 ham.2
  | endOp sid =>
    cases hfa : findActive store sid with
    | none => exact hnochange _ (by simp [applyOp, endSession, hfa])
    | some s =>
      have hres : applyOp store (SessionOp.endOp sid) t =
          saveSession store (s.endSessionDoc t) := by
        simp only [applyOp, endSession]
        rw [hfa]
      rw [hres]
      have ham := endDoc_wf (hwf.2 s (findActive_spec hfa).1) hct
      exact hsave _ hfa rfl ham.1 ham.2
  | sweep timeout =>
    obtain ⟨ha, hb, hcv, hids⟩ := sweep_step store timeout t clock hwf hct
    refine ⟨ha, hb, hcv, ?_⟩
    show List.Sublist ((sweepExpired store timeout t).map (·.sessionId)) _
    rw [hids]
    exact List.sublist_append_left _ _

lemma runOps_invariants :
    ∀ (trace : List (SessionOp × Nat)) (store : List Session) (clock : Nat),
      storeWF clock store →
      timesMono clock trace = true →
      (store.map (·.sessionId) ++ createdIds trace).Nodup →
      (∃ endT, storeWF endT (runOps store trace)) ∧
      store.length ≤ (runOps store trace).length ∧
      (∀ i, i < store.length →
        evolves (store.getD i defaultSession)
          ((runOps store trace).getD i defaultSession))
  | [], store, clock, hwf, _, _ =>
    ⟨⟨clock, hwf⟩, Nat.le_refl _, fun _ _ => evolves_refl _⟩
  | (op, t) :: rest, store, clock, hwf, hmono, hnodup => by
    rw [timesMono, Bool.and_eq_true] at hmono
    have hct : clock ≤ t := of_decide_eq_true hmono.1
    have hcreated : createdIds ((op, t) :: rest) = opCreated op ++ createdIds rest := by
      cases op <;> rfl
    have hfresh : ∀ info sid, op = SessionOp.create info sid →
        sid ∉ store.map (·.sessionId) := by
      intro info sid heq hc
      subst heq
      rw [hcreated] at hnodup
      rw [List.nodup_append] at hnodup
      exact hnodup.2.2 hc (List.mem_append.mpr (Or.inl (List.mem_singleton.mpr rfl)))
    obtain ⟨hwf', hlen', hev', hids'⟩ := applyOp_step store op t clock hwf hct hfresh
    have hnodup' : ((applyOp store op t).map (·.sessionId) ++ createdIds rest).Nodup := by
      have hsub : List.Sublist
          ((applyOp store op t).map (·.sessionId) ++ createdIds rest)
          ((store.map (·.sessionId) ++ opCreated op) ++ createdIds rest) :=
        hids'.append_right _
      apply List.Nodup.sublist hsub
      rw [hcreated, ← List.append_assoc] at hnodup
      exact hnodup
    obtain ⟨hend, hlen2, hev2⟩ :=
      runOps_invariants rest (applyOp store op t) t hwf' hmono.2 hnodup'
    refine ⟨hend, ?_, ?_⟩
    · rw [runOps]
      exact hlen'.trans hlen2
    · intro i hi
      rw [runOps]
      exact evolves_trans (hev' i hi) (hev2 i (Nat.lt_of_lt_of_le hi hlen'))

/-- C4: over any timed history of session operations (`createSession` with
fresh ids, user/bot `appendMessage`, `touchActivity`, `endSession` and the
inactivity sweep) with non-decreasing times, starting from a well-formed
store, every session document evolves monotonically: its id is stable, once
`ended` or `expired` it is never `active` again, `lastActivity` never
decreases, the transcript is append-only, and the final documents keep
non-decreasing message timestamps. -/
theorem session_lifecycle_invariants
    (store : List Session) (clock : Nat) (trace : List (SessionOp × Nat))
    (hwf : storeWF clock store)
    (hmono : timesMono clock trace = true)
    (hfresh : (store.map (·.sessionId) ++ createdIds trace).Nodup) :
    store.length ≤ (runOps store trace).length ∧
    (∀ i, i < store.length →
      evolves (store.getD i defaultSession)
        ((runOps store trace).getD i defaultSession)) ∧
    (∀ d ∈ runOps store trace,
      List.Pairwise (fun a b => a.timestamp ≤ b.timestamp) d.messages) := by
  obtain ⟨⟨endT, hwfend⟩, hlen, hev⟩ :=
    runOps_invariants trace store clock hwf hmono hfresh
  exact ⟨hlen, hev, fun d hd => (hwfend.2 d hd).2.2⟩

/-- Witness for C4 on a concrete history: create, append, touch, end, sweep. -/
theorem session_lifecycle_invariants_witness :
    (storeWF 0 [sampleSession] ∧
      timesMono 0
        [(SessionOp.create (some janeRaw) "sX", 1),
         (SessionOp.appendUser "sid-1" "hello", 2),
         (SessionOp.touch "sid-1", 3),
         (SessionOp.endOp "sid-1", 4),
         (SessionOp.sweep 10, 20)] = true ∧
      ([sampleSession].map (·.sessionId) ++ createdIds
        [(SessionOp.create (some janeRaw) "sX", 1),
         (SessionOp.appendUser "sid-1" "hello", 2),
         (SessionOp.touch "sid-1", 3),
         (SessionOp.endOp "sid-1", 4),
         (SessionOp.sweep 10, 20)]).Nodup) ∧
    (∀ i, i < ([sampleSession] : List Session).length →
      evolves ([sampleSession].getD i defaultSession)
        ((runOps [sampleSession]
          [(SessionOp.create (some janeRaw) "sX", 1),
           (SessionOp.appendUser "sid-1" "hello", 2),
           (SessionOp.touch "sid-1", 3),
           (SessionOp.endOp "sid-1", 4),
           (SessionOp.sweep 10, 20)]).getD i defaultSession)) :=
  ⟨⟨by decide, by decide, by decide⟩,
    (session_lifecycle_invariants [sampleSession] 0
      [(SessionOp.create (some janeRaw) "sX", 1),
       (SessionOp.appendUser "sid-1" "hello", 2),
       (SessionOp.touch "sid-1", 3),
       (SessionOp.endOp "sid-1", 4),
       (SessionOp.sweep 10, 20)]
      (by decide) (by decide) (by decide)).2.1⟩
